import Mathlib

/-!
Verification development for the `music.py` playback controller of the dndj
repository (`src/src/music.py`).

The embedding translates the Python source into Lean:
* pure helpers (`time.strptime`-based parsing, `os.path.join`, Python tuple
  indexing, Python `int()` conversion of a real number) are Lean functions;
* the data model (`Track`, `TrackList`, `MusicGroup`, `MusicManager` state)
  becomes Lean structures;
* the asyncio session lifecycle (`play_track_list`, `cancel`,
  `_play_track_list`, `set_volume`) becomes a small-step machine: each machine
  step runs one coroutine from one suspension point (an `await`) to the next,
  with the external media engine and the external caller modelled as further
  nondeterministic steps.

The IEEE-754 binary64 float arithmetic of `set_volume` (line 280's true
division, line 282's convert-multiply-subtract-truncate) is modelled
bit-exactly: a binary64 value is carried as an integer significand-exponent
pair and every operation rounds its exact result to 53 significant bits,
round to nearest, ties to even, as CPython does.
-/

namespace Dndj

/-- Python tuple/list subscription `l[i]` (music.py lines 184-185):
a negative index is first shifted by `len(l)`; an index then outside
`[0, len(l))` raises `IndexError`, modelled as `none`. -/
def pyGet {α : Type} (l : List α) (i : ℤ) : Option α :=
  let j : ℤ := if i < 0 then i + l.length else i
  if 0 ≤ j ∧ j < (l.length : ℤ) then l.get? j.toNat else none

/-- POSIX `os.path.join` restricted to two components (music.py line 213):
an absolute second component replaces the first; otherwise the parts are
joined with a single separator. -/
def pyJoin (a b : String) : String :=
  if b.data.head? = some (Char.ofNat 47) then b
  else if a = "" then b
  else if a.data.getLast? = some (Char.ofNat 47) then a ++ b
  else a ++ "/" ++ b

/-- Numeric value of a list of ASCII digit characters. -/
def digitsVal (cs : List Char) : ℕ :=
  cs.foldl (fun a c => a * 10 + (c.toNat - 48)) 0

/-- One field of `time.strptime`'s `%H` / `%M` / `%S` directives: one or two
ASCII digit characters whose value is at most `maxVal` (23 for `%H`, 59 for
`%M`, 61 for `%S`, following CPython's `_strptime` regular expressions). -/
def parseTimeField (maxVal : ℕ) (cs : List Char) : Option ℕ :=
  if 1 ≤ cs.length ∧ cs.length ≤ 2 ∧ cs.all Char.isDigit then
    if digitsVal cs ≤ maxVal then some (digitsVal cs) else none
  else none

/-- Split a character list at every colon (the field separator of the
`"%H:%M:%S"` format); the list of fields, like Python's `str.split(":")`. -/
def splitOnColon (cs : List Char) : List (List Char) :=
  match cs with
  | [] => [[]]
  | c :: rest =>
      match splitOnColon rest, decide (c = ':') with
      | r, true => [] :: r
      | [], false => [[c]]
      | f :: more, false => (c :: f) :: more

/-- The successful parses of `time.strptime(s, "%H:%M:%S")` (music.py line 43):
exactly three colon-separated fields, each a valid `%H`/`%M`/`%S` field, with
the whole string consumed.  A `none` result models the `ValueError` raised by
`strptime`.  (CPython's digit class also admits non-ASCII decimal digits;
those exotic inputs are not modelled.) -/
def parseHMS (s : String) : Option (ℕ × ℕ × ℕ) :=
  match splitOnColon s.data with
  | [h, m, sec] =>
      match parseTimeField 23 h, parseTimeField 59 m, parseTimeField 61 sec with
      | some hv, some mv, some sv => some (hv, mv, sv)
      | _, _, _ => none
  | _ => none

/-- `Track._convert_formatted_time_to_ms` (music.py lines 37-44):
`(tm_sec + tm_min * 60 + tm_hour * 3600) * 1000`; `none` models the
`ValueError` propagating out of `time.strptime`. -/
def convertFormattedTimeToMs (s : String) : Option ℤ :=
  (parseHMS s).map (fun t => ((t.2.2 : ℤ) + t.2.1 * 60 + t.1 * 3600) * 1000)

/-- A `Track` after construction: file name plus optional start/end positions
in milliseconds (music.py lines 26-35). -/
structure Track where
  file : String
  start_at : Option ℤ
  end_at : Option ℤ
  deriving DecidableEq

/-- The `config` argument of `Track.__init__`: either a bare file name or a
record with optional `"start_at"` / `"end_at"` keys. -/
inductive TrackConfig
  | str (file : String)
  | record (file : String) (start_at : Option String) (end_at : Option String)

/-- `Track.__init__` (music.py lines 14-35); `none` models the `ValueError`
raised when a supplied time string does not parse. -/
def mkTrack : TrackConfig → Option Track
  | .str f => some ⟨f, none, none⟩
  | .record f sa ea =>
      let sa' : Option (Option ℤ) :=
        match sa with
        | none => some none
        | some s => (convertFormattedTimeToMs s).map some
      let ea' : Option (Option ℤ) :=
        match ea with
        | none => some none
        | some s => (convertFormattedTimeToMs s).map some
      match sa', ea' with
      | some a, some b => some ⟨f, a, b⟩
      | _, _ => none

/-- A `TrackList` after construction (music.py lines 54-72); `tracks` models
the immutable tuple stored by `__init__`. -/
structure TrackList where
  name : String
  directory : Option String
  loop : Bool
  shuffle : Bool
  tracks : List Track
  deriving DecidableEq

/-- A `MusicGroup` after construction (music.py lines 91-111). -/
structure MusicGroup where
  name : String
  directory : Option String
  track_lists : List TrackList
  deriving DecidableEq

/-- The media-engine handle made by `vlc.MediaPlayer` (music.py line 217),
with the observable engine state the source uses: volume
(`audio_get_volume` / `audio_set_volume`), `is_playing`, and `get_time`. -/
structure Player where
  file : String
  vol : ℤ
  playing : Bool
  time : ℤ
  deriving DecidableEq

/-- The `CurrentlyPlaying` named tuple (music.py line 127); the task is
referred to by its index in the machine's task list. -/
structure CurrentlyPlaying where
  group : MusicGroup
  track_list : TrackList
  taskIdx : ℕ
  deriving DecidableEq

/-- The mutable `MusicManager` state (music.py lines 146-153). -/
structure Mgr where
  volume : ℤ
  directory : Option String
  groups : List MusicGroup
  currently_playing : Option CurrentlyPlaying
  current_player : Option Player
  deriving DecidableEq

/-- Stable sort of groups by name, modelling `sorted(groups, key=lambda x: x.name)`
(music.py line 150). -/
def sortGroupsByName (gs : List MusicGroup) : List MusicGroup :=
  gs.mergeSort (fun a b => a.name ≤ b.name)

/-- `MusicManager.__init__` (music.py lines 134-153), taking the group list
already built: `volume` is stored as `int(config["volume"])` with no range
check, groups are sorted by name unless sorting is disabled, and both session
fields start absent. -/
def mkMusicManager (volume : ℤ) (directory : Option String) (sort : Bool)
    (groups : List MusicGroup) : Mgr :=
  { volume := volume
    directory := directory
    groups := if sort then sortGroupsByName groups else groups
    currently_playing := none
    current_player := none }

/-- `MusicManager._get_track_list_root_directory` (music.py lines 248-263):
track-list directory, else group directory, else manager directory; `none`
models the `ValueError("Missing directory")`. -/
def getTrackListRootDirectory (selfDir : Option String) (g : MusicGroup)
    (tl : TrackList) : Option String :=
  let root := match tl.directory with
    | some d => some d
    | none => g.directory
  let root := match root with
    | some d => some d
    | none => selfDir
  root

/-- Bit length of a natural number, written with explicit fuel so that the
kernel can evaluate it; `bitsAux fuel n` is exact whenever `n ≤ fuel`. -/
def bitsAux : ℕ → ℕ → ℕ
  | 0, _ => 0
  | fuel + 1, n => if n = 0 then 0 else bitsAux fuel (n / 2) + 1

/-- Number of binary digits of `n` (0 for `n = 0`). -/
def bits (n : ℕ) : ℕ := bitsAux n n

/-- Round the fraction `a / b` (`a, b ≥ 1`) to 53 significant bits, round to
nearest, ties to even: the pair `(m, e)` with `2^52 ≤ m < 2^53` such that
`m · 2^e` is the binary64 value nearest to `a / b`.  The quotient is first
scaled by a power of two into `[2^52, 2^54)` using bit lengths, corrected by
one binade if needed, then rounded on its exact remainder. -/
def rnePos (a b : ℕ) : ℕ × ℤ :=
  let e1 : ℤ := (bits a : ℤ) - (bits b : ℤ) - 53
  let x : ℕ := if 0 ≤ e1 then a else a * 2 ^ (-e1).toNat
  let y : ℕ := if 0 ≤ e1 then b * 2 ^ e1.toNat else b
  let y2 : ℕ := if x / y < 2 ^ 53 then y else y * 2
  let e2 : ℤ := if x / y < 2 ^ 53 then e1 else e1 + 1
  let q := x / y2
  let r := x % y2
  let m := if 2 * r < y2 then q
    else if y2 < 2 * r then q + 1
    else if q % 2 = 0 then q else q + 1
  if m = 2 ^ 53 then (2 ^ 52, e2 + 1) else (m, e2)

/-- A finite IEEE-754 binary64 value, written `m · 2^e`.  The exponent is
not range-limited: the magnitudes arising in `set_volume` are far inside the
normal range, so overflow and subnormal rounding never occur there (CPython
raises `OverflowError` on `int / int` long before the limit matters), and no
operation modelled here can produce an infinity, a NaN, or a negative
zero distinct from zero. -/
structure F64 where
  m : ℤ
  e : ℤ
  deriving DecidableEq

/-- Round the exact fraction `p / q` (`q ≥ 1`) to the nearest binary64,
ties to even. -/
def rneRat (p : ℤ) (q : ℕ) : F64 :=
  if p = 0 then ⟨0, 0⟩
  else
    let me := rnePos p.natAbs q
    if 0 ≤ p then ⟨(me.1 : ℤ), me.2⟩ else ⟨-(me.1 : ℤ), me.2⟩

/-- Round the exact dyadic value `m · 2^e` to the nearest binary64. -/
def rneDy (m : ℤ) (e : ℤ) : F64 :=
  if 0 ≤ e then rneRat (m * 2 ^ e.toNat) 1 else rneRat m (2 ^ (-e).toNat)

/-- Python `float(k)`: the binary64 nearest to the integer `k`. -/
def fOfInt (k : ℤ) : F64 := rneRat k 1

/-- Python `int / int` true division: the correctly rounded binary64
quotient (CPython computes it correctly rounded even for operands beyond
`2^53`). -/
def fDivInt (p : ℤ) (n : ℕ) : F64 := rneRat p n

/-- Python `int * float`: the integer is converted to binary64 first, then
the exact product of the two binary64 values is rounded. -/
def fMulInt (k : ℤ) (x : F64) : F64 :=
  let kf := fOfInt k
  rneDy (kf.m * x.m) (kf.e + x.e)

/-- Python `int - float`: the integer is converted to binary64 first, then
the exact difference of the two binary64 values is rounded. -/
def fSubIntF (k : ℤ) (x : F64) : F64 :=
  let kf := fOfInt k
  let emin := min kf.e x.e
  rneDy (kf.m * 2 ^ (kf.e - emin).toNat - x.m * 2 ^ (x.e - emin).toNat) emin

/-- Python `int()` applied to a finite float: truncation toward zero. -/
def fTrunc (x : F64) : ℤ :=
  if 0 ≤ x.e then x.m * 2 ^ x.e.toNat else Int.tdiv x.m (2 ^ (-x.e).toNat)

/-- One write of the smooth-fade loop in `set_volume` (music.py lines
279-283), evaluated in IEEE-754 binary64 arithmetic exactly as CPython does:
`step_size = (current_volume - volume) / n_steps` is an exact integer
difference followed by a correctly rounded true division, and the `(i+1)`-st
written value is `int(current_volume - (i + 1) * step_size)` — convert,
multiply and subtract, each correctly rounded, then truncate toward zero. -/
def rampValue (v0 vt : ℤ) (n : ℕ) (i : ℕ) : ℤ :=
  let stepSize := fDivInt (v0 - vt) n
  fTrunc (fSubIntF v0 (fMulInt ((i : ℤ) + 1) stepSize))

/-- The full sequence of handle-volume writes of a smooth `set_volume` call
from current volume `v0` toward `vt` over `n` steps (music.py lines 279-284).
Requires `n ≠ 0` to be meaningful (with `n = 0` the source raises
`ZeroDivisionError` before the loop). -/
def smoothVolumeWrites (v0 vt : ℤ) (n : ℕ) : List ℤ :=
  (List.range n).map (rampValue v0 vt n)

/-- Rounding of the exact fraction `p / n` (`n > 0`) to the nearest integer,
ties upward: `round x = ⌊x + 1/2⌋ = ⌊(2p + n) / 2n⌋`. -/
def roundRat (p : ℤ) (n : ℕ) : ℤ := Int.ediv (2 * p + n) (2 * n)

/-- The write sequence that §4.5 of the specification describes: the `(i+1)`-st
write is `round(V0 - (i+1) · (V0 - volume)/steps)`, rounding to nearest.
This is the claimed behaviour, kept separate so it can be compared with the
source-derived `smoothVolumeWrites`. -/
def smoothVolumeWritesSpec (v0 vt : ℤ) (n : ℕ) : List ℤ :=
  (List.range n).map (fun i => roundRat (v0 * n - ((i : ℤ) + 1) * (v0 - vt)) n)

/-- Write a value to the live handle's volume (`audio_set_volume`), a no-op
when no handle is live. -/
def setPlayerVol (m : Mgr) (v : ℤ) : Mgr :=
  match m.current_player with
  | some p => { m with current_player := some { p with vol := v } }
  | none => m

/-- `MediaPlayer.stop()` applied to the manager's live handle. -/
def stopPlayer (m : Mgr) : Mgr :=
  match m.current_player with
  | some p => { m with current_player := some { p with playing := false } }
  | none => m

/-- A `set_volume(volume, set_global, smooth, n_steps)` call run to completion
with no live competing task (music.py lines 265-287), returning the resulting
manager state and the list of handle-volume writes performed, in order.  The
`asyncio.sleep(seconds / n_steps)` between writes has no state effect beyond
yielding and is dropped here; in-session fades are modelled step-by-step by
the machine below. -/
def setVolumeRun (m : Mgr) (v : ℤ) (set_global smooth : Bool) (n : ℕ) :
    Mgr × List ℤ :=
  let ws : List ℤ :=
    match m.current_player with
    | none => []
    | some p => if smooth then smoothVolumeWrites p.vol v n else [v]
  let m1 := ws.foldl setPlayerVol m
  (if set_global then { m1 with volume := v } else m1, ws)

/-- The external world of a run: whether a path exists on disk
(`os.path.isfile`, line 214), whether `MediaPlayer.play()` succeeds for a path
(line 219, `-1` meaning failure), and the permutation `random.shuffle`
produces on the working copy at the k-th playback pass (line 204). -/
structure Env where
  isFile : String → Bool
  playOk : String → Bool
  shuffle : ℕ → List Track → List Track

/-- Suspension points of the `_play_track_list` coroutine (music.py
lines 195-246).  Each live constructor names the `await` at which the
coroutine is parked, carrying the loop state of the enclosing Python frames:

* `entry` — task created by `loop.create_task`, body not yet started;
* `settling cur rest` — at the `await asyncio.sleep(0.1)` of line 226, with
  `cur` the current track and `rest` the tracks still to play in this pass;
* `ramping cur rest i v0 vt` — inside the `set_volume(self.volume)` call of
  line 227, parked at the sleep of line 284 after the `(i+1)`-st write of a
  fade that started from handle volume `v0` toward target `vt`;
* `polling cur rest` — at the `await asyncio.sleep(SLEEP_TIME)` of line 232;
* `fading cur rest i v0` — inside the `set_volume(0)` call of line 235 (the
  `except asyncio.CancelledError` handler of the poll loop);
* `wedged` — the tight `while True` loop spinning with an empty looping track
  list: no `await` is ever reached, so the coroutine never yields again;

and the terminal states:

* `deadClean` — the task ended through the `except` block of lines 240-246
  (cleanup executed);
* `deadNoCleanup` — the task ended without running that block: natural
  completion through the `break` of line 239, or cancellation delivered
  before the body first ran;
* `crashed` — an `AttributeError` from calling a method on
  `self.current_player` while it is `None`; not caught by
  `except asyncio.CancelledError`, so the task dies without cleanup. -/
inductive SPC
  | entry
  | settling (cur : Track) (rest : List Track)
  | ramping (cur : Track) (rest : List Track) (i : ℕ) (v0 vt : ℤ)
  | polling (cur : Track) (rest : List Track)
  | fading (cur : Track) (rest : List Track) (i : ℕ) (v0 : ℤ)
  | wedged
  | deadClean
  | deadNoCleanup
  | crashed
  deriving DecidableEq

/-- One asyncio task running `_play_track_list(group, track_list)`:
its suspension point, its pending-cancellation flag (`Task.cancel` requests
delivery of `CancelledError` at the next resumption), the bound arguments,
and the number of playback passes started (the seed fed to the shuffle
oracle). -/
structure TaskState where
  pc : SPC
  cancelReq : Bool
  group : MusicGroup
  trackList : TrackList
  passes : ℕ
  deriving DecidableEq

/-- A task is alive unless it has returned or died. -/
def isLive (t : TaskState) : Bool :=
  match t.pc with
  | .deadClean => false
  | .deadNoCleanup => false
  | .crashed => false
  | _ => true

/-- The cleanup of the `except asyncio.CancelledError` block (music.py
lines 240-246): if a handle is live it is stopped, then both
`currently_playing` and `current_player` are cleared; the stopped handle is
dropped together with its reference. -/
def cleanupMgr (m : Mgr) : Mgr :=
  { m with currently_playing := none, current_player := none }

/-- Lines 206-227 of music.py, the straight-line code from the head of the
`for track in tracks` body to the first `await`: resolve the directory (a
failure raises `CancelledError`, line 212, caught by the outer handler —
cleanup), check the file exists (line 216, same), create the handle with
volume 0, call `play()` (a `-1` raises `CancelledError`, line 222, same
handler, with the fresh handle now stored in `current_player`), seek to
`start_at` if set, then park at the sleep of line 226. -/
def startTrack (env : Env) (m : Mgr) (g : MusicGroup) (tl : TrackList)
    (cur : Track) (rest : List Track) : Mgr × SPC :=
  match getTrackListRootDirectory m.directory g tl with
  | none => (cleanupMgr m, .deadClean)
  | some root =>
      let path := pyJoin root cur.file
      if env.isFile path then
        let p0 : Player := { file := path, vol := 0, playing := false, time := 0 }
        let m1 := { m with current_player := some p0 }
        if env.playOk path then
          let p1 : Player := { p0 with playing := true, time := cur.start_at.getD 0 }
          ({ m1 with current_player := some p1 }, .settling cur rest)
        else (cleanupMgr m1, .deadClean)
      else (cleanupMgr m, .deadClean)

/-- Lines 201-204 of music.py, the head of one pass of the outer
`while True` loop: copy the stored tuple into a working list, shuffle the
copy if requested, then start its first track.  An empty working list with
`loop = True` spins in the outer loop forever without reaching an `await`
(`wedged`); with `loop = False` it breaks out and the coroutine returns
(no cleanup runs — the `except` block is not entered on a normal return). -/
def workingTracks (env : Env) (tl : TrackList) (seed : ℕ) : List Track :=
  if tl.shuffle then env.shuffle seed tl.tracks else tl.tracks

/-- One pass of the outer loop, acting on the working copy made by
`workingTracks` (the stored `tl.tracks` is read, never written). -/
def beginPass (env : Env) (m : Mgr) (g : MusicGroup) (tl : TrackList)
    (seed : ℕ) : Mgr × SPC :=
  match workingTracks env tl seed with
  | [] => if tl.loop then (m, .wedged) else (m, .deadNoCleanup)
  | c :: r => startTrack env m g tl c r

/-- Attach a new suspension point to a task. -/
def withPC (t : TaskState) (r : Mgr × SPC) : Mgr × TaskState :=
  (r.1, { t with pc := r.2 })

/-- Lines 237-239 of music.py: the current track's inner loop has ended;
play the next track of the pass, or consult `track_list.loop`: start a new
pass, or `break` and return — returning normally does not execute the
`except` block, so no cleanup runs. -/
def finishTrackAdvance (env : Env) (m : Mgr) (t : TaskState)
    (rest : List Track) : Mgr × TaskState :=
  match rest with
  | c :: r => withPC t (startTrack env m t.group t.trackList c r)
  | [] =>
      if t.trackList.loop then
        withPC { t with passes := t.passes + 1 }
          (beginPass env m t.group t.trackList t.passes)
      else (m, { t with pc := .deadNoCleanup })

/-- Lines 228-232 of music.py, one evaluation of the inner poll loop:
`while self.current_player.is_playing()` (an `AttributeError` if the handle
is `None`), and if still playing, the `end_at` check which may `stop()` the
handle, then park at the sleep of line 232. -/
def pollCheck (env : Env) (m : Mgr) (t : TaskState) (cur : Track)
    (rest : List Track) : Mgr × TaskState :=
  match m.current_player with
  | none => (m, { t with pc := .crashed })
  | some p =>
      if p.playing then
        let m' := match cur.end_at with
          | some e => if e ≤ p.time then stopPlayer m else m
          | none => m
        (m', { t with pc := .polling cur rest })
      else finishTrackAdvance env m t rest

/-- Resume the `_play_track_list` coroutine once: run it from its current
suspension point to the next one (or to death).  If a cancellation is
pending it is delivered first, at the suspension point itself, and the flag
is consumed:

* at `entry` the body never ran, so no handler catches it — the task dies
  without cleanup;
* at `settling` / `ramping` the exception propagates straight to the outer
  `except` (lines 240-246): cleanup, then death;
* at `polling` the inner handler (lines 233-236) first runs
  `await self.set_volume(0, set_global=False)` — a fresh 20-step fade to 0
  whose first write happens before its first sleep (skipped entirely when the
  handle is `None`, in which case the re-raise reaches the outer handler at
  once);
* at `fading` (a second cancellation) the exception propagates out of the
  handler to the outer `except`: cleanup, then death;
* at `wedged` there is no suspension point, so it is never delivered. -/
def resumeSession (env : Env) (m : Mgr) (t : TaskState) : Mgr × TaskState :=
  match t.cancelReq, t.pc with
  | true, .entry => (m, { t with pc := .deadNoCleanup, cancelReq := false })
  | true, .settling _ _ => (cleanupMgr m, { t with pc := .deadClean, cancelReq := false })
  | true, .ramping _ _ _ _ _ => (cleanupMgr m, { t with pc := .deadClean, cancelReq := false })
  | true, .polling cur rest =>
      match m.current_player with
      | none => (cleanupMgr m, { t with pc := .deadClean, cancelReq := false })
      | some p =>
          (setPlayerVol m (rampValue p.vol 0 20 0),
           { t with pc := .fading cur rest 0 p.vol, cancelReq := false })
  | true, .fading _ _ _ _ => (cleanupMgr m, { t with pc := .deadClean, cancelReq := false })
  | true, _ => (m, t)
  | false, .entry =>
      withPC { t with passes := t.passes + 1 }
        (beginPass env m t.group t.trackList t.passes)
  | false, .settling cur rest =>
      match m.current_player with
      | none => (m, { t with pc := .crashed })
      | some p =>
          (setPlayerVol m (rampValue p.vol m.volume 20 0),
           { t with pc := .ramping cur rest 0 p.vol m.volume })
  | false, .ramping cur rest i v0 vt =>
      if i + 1 < 20 then
        match m.current_player with
        | none => (m, { t with pc := .crashed })
        | some _ =>
            (setPlayerVol m (rampValue v0 vt 20 (i + 1)),
             { t with pc := .ramping cur rest (i + 1) v0 vt })
      else pollCheck env m t cur rest
  | false, .polling cur rest => pollCheck env m t cur rest
  | false, .fading cur rest i v0 =>
      if i + 1 < 20 then
        match m.current_player with
        | none => (m, { t with pc := .crashed })
        | some _ =>
            (setPlayerVol m (rampValue v0 0 20 (i + 1)),
             { t with pc := .fading cur rest (i + 1) v0 })
      else (cleanupMgr m, { t with pc := .deadClean })
  | false, .wedged => (m, t)
  | false, _ => (m, t)

/-- Suspension points of the public coroutines (`play_track_list` and
`cancel`, music.py lines 170-193); at most one public call is in flight,
matching the single dispatcher that drives the manager:

* `playWaiting g tl` — inside `play_track_list`, parked at the sleep of the
  `cancel()` busy-wait (line 177) with the target group and track list
  already resolved;
* `playSleep` — parked at the final `await asyncio.sleep(SLEEP_TIME)` of
  line 193, the new task already created and recorded;
* `cancelWaiting` — inside a directly invoked `cancel()`, parked at the sleep
  of line 177;
* `indexError` — `play_track_list` raised `IndexError` at line 184/185,
  surfaced to the caller. -/
inductive CPC
  | idle
  | playWaiting (g : MusicGroup) (tl : TrackList)
  | playSleep
  | cancelWaiting
  | indexError
  deriving DecidableEq

/-- A whole machine configuration: the shared manager state, every session
task ever created (dead ones persist as finished `Task` objects), and the
public-call slot. -/
structure Config where
  mgr : Mgr
  sessions : List TaskState
  controller : CPC
  deriving DecidableEq

/-- The index resolution of `play_track_list` (music.py lines 184-185):
`self.groups[group_index]` then `group.track_lists[track_list_index]`, with
Python indexing; `none` models the `IndexError`. -/
def resolveIndices (m : Mgr) (gi ti : ℤ) : Option (MusicGroup × TrackList) :=
  match pyGet m.groups gi with
  | none => none
  | some g =>
      match pyGet g.track_lists ti with
      | none => none
      | some tl => some (g, tl)

/-- `self.currently_playing.task.cancel()` (music.py line 175): request
cancellation of the referenced task.  On a finished task this is a no-op in
effect, because a dead task is never resumed. -/
def setCancelFlag (l : List TaskState) (i : ℕ) : List TaskState :=
  match l.get? i with
  | some t => l.set i { t with cancelReq := true }
  | none => l

/-- Lines 189-193 of music.py: `loop.create_task(self._play_track_list(...))`
followed by recording the `CurrentlyPlaying` tuple, then parking at the final
sleep.  Both happen before the next `await`, hence in one machine step. -/
def spawnSession (c : Config) (g : MusicGroup) (tl : TrackList) : Config :=
  { mgr := { c.mgr with
      currently_playing := some ⟨g, tl, c.sessions.length⟩ }
    sessions := c.sessions ++ [(⟨SPC.entry, false, g, tl, 0⟩ : TaskState)]
    controller := .playSleep }

/-- A scheduling choice: resume the public call, resume session task `i`,
begin a public `play_track_list(gi, ti)` or `cancel()` call, or let the
engine act on the live handle (stop at natural end of media, or report a new
playback position). -/
inductive Choice
  | controller
  | session (i : ℕ)
  | invokePlay (gi ti : ℤ)
  | invokeCancel
  | engineStop
  | engineTick (tm : ℤ)

/-- One machine step under scheduling choice `ch`; `none` when that choice
cannot act in configuration `c`.  Each case runs the chosen actor from one
suspension point to the next, exactly following the source:

* a public call starts with its synchronous prefix: `play_track_list`
  resolves both indices (an out-of-range index raises `IndexError` before
  any state is touched), then runs `cancel()` — which, with no active
  session, returns without ever yielding, so the new task is created in the
  same step; with an active session it requests cancellation and parks in
  the busy-wait.  The busy-wait re-checks `self.currently_playing` each
  resumption and exits (creating the task, for `play_track_list`) only once
  it is absent. -/
def stepOf (env : Env) (ch : Choice) (c : Config) : Option Config :=
  match ch with
  | .session i =>
      match c.sessions.get? i with
      | some t =>
          if isLive t then
            let r := resumeSession env c.mgr t
            some { c with mgr := r.1, sessions := c.sessions.set i r.2 }
          else none
      | none => none
  | .controller =>
      match c.controller with
      | .playWaiting g tl =>
          match c.mgr.currently_playing with
          | some _ => some c
          | none => some (spawnSession c g tl)
      | .playSleep => some { c with controller := .idle }
      | .cancelWaiting =>
          match c.mgr.currently_playing with
          | some _ => some c
          | none => some { c with controller := .idle }
      | _ => none
  | .invokePlay gi ti =>
      if c.controller = .idle ∨ c.controller = .indexError then
        match resolveIndices c.mgr gi ti with
        | none => some { c with controller := .indexError }
        | some (g, tl) =>
            match c.mgr.currently_playing with
            | none => some (spawnSession c g tl)
            | some cp =>
                some { c with
                  sessions := setCancelFlag c.sessions cp.taskIdx
                  controller := .playWaiting g tl }
      else none
  | .invokeCancel =>
      if c.controller = .idle ∨ c.controller = .indexError then
        match c.mgr.currently_playing with
        | none => some c
        | some cp =>
            some { c with
              sessions := setCancelFlag c.sessions cp.taskIdx
              controller := .cancelWaiting }
      else none
  | .engineStop =>
      match c.mgr.current_player with
      | some p =>
          if p.playing then
            some { c with mgr :=
              { c.mgr with current_player := some { p with playing := false } } }
          else none
      | none => none
  | .engineTick tm =>
      match c.mgr.current_player with
      | some p =>
          some { c with mgr :=
            { c.mgr with current_player := some { p with time := tm } } }
      | none => none

/-- One step of the machine, any scheduling choice. -/
def MStep (env : Env) (c c' : Config) : Prop :=
  ∃ ch, stepOf env ch c = some c'

/-- Reachability under the machine's step relation. -/
def Reach (env : Env) : Config → Config → Prop :=
  Relation.ReflTransGen (MStep env)

/-- Number of live session tasks. -/
def liveCount (c : Config) : ℕ :=
  c.sessions.countP (fun t => isLive t)

/-- A freshly constructed manager: no session task exists yet and the
public-call slot is free. -/
def initialConfig (m : Mgr) : Config :=
  { mgr := m, sessions := [], controller := .idle }

/-- Run the machine along an explicit schedule. -/
def runSched (env : Env) : List Choice → Config → Option Config
  | [], c => some c
  | ch :: rest, c =>
      match stepOf env ch c with
      | some c' => runSched env rest c'
      | none => none

/-- What one resumption of the session coroutine can do to the shared manager
state: either it leaves `currently_playing` (and the configuration fields)
untouched, or it has executed the cleanup block and died through it. -/
def StepsTo (m : Mgr) (r : Mgr × SPC) : Prop :=
  (r.1.currently_playing = m.currently_playing ∧ r.1.volume = m.volume ∧
    r.1.directory = m.directory ∧ r.1.groups = m.groups) ∨
  (r.1 = cleanupMgr m ∧ r.2 = SPC.deadClean)

/-- `StepsTo` for the helpers that already carry the task record. -/
def StepsToT (m : Mgr) (r : Mgr × TaskState) : Prop :=
  (r.1.currently_playing = m.currently_playing ∧ r.1.volume = m.volume ∧
    r.1.directory = m.directory ∧ r.1.groups = m.groups) ∨
  (r.1 = cleanupMgr m ∧ r.2.pc = SPC.deadClean)

/-- The single-active-session invariant: at most one session task is alive,
and when the manager shows no current session, no session task is alive and
no engine handle is held. -/
def Inv (c : Config) : Prop :=
  liveCount c ≤ 1 ∧
  (c.mgr.currently_playing = none →
    liveCount c = 0 ∧ c.mgr.current_player = none)

/-- A deterministic external world for concrete runs: every file exists, the
engine always starts, and shuffling is the identity permutation. -/
def envId : Env := ⟨fun _ => true, fun _ => true, fun _ ts => ts⟩

def trackA : Track := ⟨"a.mp3", none, none⟩

def trackB : Track := ⟨"b.mp3", none, none⟩

/-- The track list of the specification's own end-to-end example:
`loop=false`, `shuffle=false`, tracks `["a.mp3", "b.mp3"]`. -/
def tlTwo : TrackList := ⟨"T", none, false, false, [trackA, trackB]⟩

def groupG : MusicGroup := ⟨"G", none, [tlTwo]⟩

def mgrEx : Mgr := ⟨50, some "/music", [groupG], none, none⟩

/-- A schedule that drives the §8 example to natural completion:
`play_track_list(0,0)`, let the new task play both tracks to their natural
end (the engine reports the end of the media between the polls), and let the
session coroutine return. -/
def schedNat : List Choice :=
  [.invokePlay 0 0, .controller] ++ List.replicate 22 (Choice.session 0) ++
    [.engineStop, .session 0] ++ List.replicate 21 (Choice.session 0) ++
    [.engineStop, .session 0]

def natRun : Option Config := runSched envId schedNat (initialConfig mgrEx)

/-- After the run the session task has ended, yet the manager still shows a
current session and still holds the engine handle. -/
def endedWithoutCleanup (c : Config) : Bool :=
  liveCount c == 0 && c.mgr.currently_playing.isSome && c.mgr.current_player.isSome

def natRunCancel : Option Config :=
  runSched envId (schedNat ++ [.invokeCancel, .controller, .controller])
    (initialConfig mgrEx)

def tlJazz : TrackList := ⟨"J", some "/jazz", true, true, []⟩

theorem setPlayerVol_frame (m : Mgr) (v : ℤ) :
    (setPlayerVol m v).currently_playing = m.currently_playing ∧
    (setPlayerVol m v).volume = m.volume ∧
    (setPlayerVol m v).directory = m.directory ∧
    (setPlayerVol m v).groups = m.groups := by
  unfold setPlayerVol; split <;> exact ⟨rfl, rfl, rfl, rfl⟩

theorem stopPlayer_frame (m : Mgr) :
    (stopPlayer m).currently_playing = m.currently_playing ∧
    (stopPlayer m).volume = m.volume ∧
    (stopPlayer m).directory = m.directory ∧
    (stopPlayer m).groups = m.groups := by
  unfold stopPlayer; split <;> exact ⟨rfl, rfl, rfl, rfl⟩

theorem setPlayerVol_stepsTo' (m : Mgr) (v : ℤ) :
    (setPlayerVol m v).currently_playing = m.currently_playing ∧
    (setPlayerVol m v).volume = m.volume ∧
    (setPlayerVol m v).directory = m.directory ∧
    (setPlayerVol m v).groups = m.groups :=
  setPlayerVol_frame m v

theorem startTrack_stepsTo (env : Env) (m : Mgr) (g : MusicGroup)
    (tl : TrackList) (cur : Track) (rest : List Track) :
    StepsTo m (startTrack env m g tl cur rest) := by
  unfold startTrack
  cases hd : getTrackListRootDirectory m.directory g tl with
  | none => exact Or.inr ⟨rfl, rfl⟩
  | some root =>
      dsimp only
      split
      · split
        · exact Or.inl ⟨rfl, rfl, rfl, rfl⟩
        · exact Or.inr ⟨rfl, rfl⟩
      · exact Or.inr ⟨rfl, rfl⟩

theorem beginPass_stepsTo (env : Env) (m : Mgr) (g : MusicGroup)
    (tl : TrackList) (seed : ℕ) : StepsTo m (beginPass env m g tl seed) := by
  unfold beginPass
  cases hw : workingTracks env tl seed with
  | nil =>
      dsimp only
      split
      · exact Or.inl ⟨rfl, rfl, rfl, rfl⟩
      · exact Or.inl ⟨rfl, rfl, rfl, rfl⟩
  | cons c r => exact startTrack_stepsTo env m g tl c r

theorem withPC_stepsToT (m : Mgr) (t : TaskState) (r : Mgr × SPC)
    (h : StepsTo m r) : StepsToT m (withPC t r) := by
  rcases h with ⟨h1, h2, h3, h4⟩ | ⟨h1, h2⟩
  · exact Or.inl ⟨h1, h2, h3, h4⟩
  · exact Or.inr ⟨h1, by simp [withPC, h2]⟩

theorem finishTrackAdvance_stepsToT (env : Env) (m : Mgr) (t : TaskState)
    (rest : List Track) : StepsToT m (finishTrackAdvance env m t rest) := by
  unfold finishTrackAdvance
  cases rest with
  | cons c r => exact withPC_stepsToT _ _ _ (startTrack_stepsTo _ _ _ _ _ _)
  | nil =>
      dsimp only
      split
      · exact withPC_stepsToT _ _ _ (beginPass_stepsTo _ _ _ _ _)
      · exact Or.inl ⟨rfl, rfl, rfl, rfl⟩

theorem pollCheck_stepsToT (env : Env) (m : Mgr) (t : TaskState) (cur : Track)
    (rest : List Track) : StepsToT m (pollCheck env m t cur rest) := by
  unfold pollCheck
  cases hp : m.current_player with
  | none => exact Or.inl ⟨rfl, rfl, rfl, rfl⟩
  | some p =>
      dsimp only
      split
      · refine Or.inl ?_
        cases he : cur.end_at with
        | none => exact ⟨rfl, rfl, rfl, rfl⟩
        | some e =>
            dsimp only
            split
            · exact stopPlayer_frame m
            · exact ⟨rfl, rfl, rfl, rfl⟩
      · exact finishTrackAdvance_stepsToT env m t rest

theorem resumeSession_stepsToT (env : Env) (m : Mgr) (t : TaskState) :
    StepsToT m (resumeSession env m t) := by
  obtain ⟨pc, cr, g, tl, ps⟩ := t
  cases cr <;> cases pc <;> simp only [resumeSession]
  case false.entry => exact withPC_stepsToT _ _ _ (beginPass_stepsTo _ _ _ _ _)
  case false.settling cur rest =>
      cases hp : m.current_player with
      | none => exact Or.inl ⟨rfl, rfl, rfl, rfl⟩
      | some p => exact Or.inl (setPlayerVol_stepsTo' m _)
  case false.ramping cur rest i v0 vt =>
      split
      · cases hp : m.current_player with
        | none => exact Or.inl ⟨rfl, rfl, rfl, rfl⟩
        | some p => exact Or.inl (setPlayerVol_stepsTo' m _)
      · exact pollCheck_stepsToT env m _ cur rest
  case false.polling cur rest => exact pollCheck_stepsToT env m _ cur rest
  case false.fading cur rest i v0 =>
      split
      · cases hp : m.current_player with
        | none => exact Or.inl ⟨rfl, rfl, rfl, rfl⟩
        | some p => exact Or.inl (setPlayerVol_stepsTo' m _)
      · exact Or.inr ⟨rfl, rfl⟩
  case true.polling cur rest =>
      cases hp : m.current_player with
      | none => exact Or.inr ⟨rfl, rfl⟩
      | some p => exact Or.inl (setPlayerVol_stepsTo' m _)
  case true.entry => exact Or.inl ⟨rfl, rfl, rfl, rfl⟩
  case true.settling cur rest => exact Or.inr ⟨rfl, rfl⟩
  case true.ramping cur rest i v0 vt => exact Or.inr ⟨rfl, rfl⟩
  case true.fading cur rest i v0 => exact Or.inr ⟨rfl, rfl⟩
  all_goals exact Or.inl ⟨rfl, rfl, rfl, rfl⟩

theorem setCancelFlag_length (l : List TaskState) (i : ℕ) :
    (setCancelFlag l i).length = l.length := by
  unfold setCancelFlag
  cases h : l.get? i <;> simp

theorem countP_set_eq {α : Type} (p : α → Bool) (l : List α) (i : ℕ) (t t' : α)
    (h : l.get? i = some t) :
    (l.set i t').countP p + (if p t then 1 else 0) =
      l.countP p + (if p t' then 1 else 0) := by
  induction l generalizing i with
  | nil => simp at h
  | cons a as ih =>
      cases i with
      | zero =>
          simp only [List.get?] at h
          injection h with h
          subst h
          simp only [List.set, List.countP_cons]
          omega
      | succ n =>
          simp only [List.get?] at h
          have := ih n h
          simp only [List.set, List.countP_cons]
          omega

theorem liveCount_setCancelFlag (c : Config) (i : ℕ) :
    (setCancelFlag c.sessions i).countP (fun t => isLive t) =
      c.sessions.countP (fun t => isLive t) := by
  unfold setCancelFlag
  cases h : c.sessions.get? i with
  | none => rfl
  | some t =>
      dsimp only
      have h2 : isLive { t with cancelReq := true } = isLive t := rfl
      have := countP_set_eq (fun t => isLive t) c.sessions i t
        { t with cancelReq := true } h
      simp only [h2] at this
      omega

/-- The playback machinery never writes the configuration hierarchy, the
default directory, or the global volume. -/
theorem stepOf_frame (env : Env) (ch : Choice) (c c' : Config)
    (h : stepOf env ch c = some c') :
    c'.mgr.groups = c.mgr.groups ∧ c'.mgr.directory = c.mgr.directory ∧
      c'.mgr.volume = c.mgr.volume := by
  cases ch <;> simp only [stepOf] at h
  case session i =>
      rcases hg : c.sessions.get? i with _ | t <;> rw [hg] at h <;> dsimp only at h
      · simp at h
      · split at h
        · injection h with h
          rw [← h]
          rcases resumeSession_stepsToT env c.mgr t with ⟨_, h2, h3, h4⟩ | ⟨hm, _⟩
          · exact ⟨h4, h3, h2⟩
          · rw [hm]; exact ⟨rfl, rfl, rfl⟩
        · simp at h
  case controller =>
      rcases hc : c.controller with _ | ⟨g, tl⟩ | _ | _ | _ <;> rw [hc] at h <;>
        dsimp only at h
      · simp at h
      · rcases hp : c.mgr.currently_playing with _ | cp <;> rw [hp] at h <;>
          dsimp only at h <;> injection h with h <;> rw [← h]
        · exact ⟨rfl, rfl, rfl⟩
        · exact ⟨rfl, rfl, rfl⟩
      · injection h with h; rw [← h]; exact ⟨rfl, rfl, rfl⟩
      · rcases hp : c.mgr.currently_playing with _ | cp <;> rw [hp] at h <;>
          dsimp only at h <;> injection h with h <;> rw [← h]
        · exact ⟨rfl, rfl, rfl⟩
        · exact ⟨rfl, rfl, rfl⟩
      · simp at h
  case invokePlay gi ti =>
      split at h
      · rcases hr : resolveIndices c.mgr gi ti with _ | ⟨g, tl⟩ <;> rw [hr] at h <;>
          dsimp only at h
        · injection h with h; rw [← h]; exact ⟨rfl, rfl, rfl⟩
        · rcases hp : c.mgr.currently_playing with _ | cp <;> rw [hp] at h <;>
            dsimp only at h <;> injection h with h <;> rw [← h]
          · exact ⟨rfl, rfl, rfl⟩
          · exact ⟨rfl, rfl, rfl⟩
      · simp at h
  case invokeCancel =>
      split at h
      · rcases hp : c.mgr.currently_playing with _ | cp <;> rw [hp] at h <;>
          dsimp only at h <;> injection h with h <;> rw [← h]
        · exact ⟨rfl, rfl, rfl⟩
        · exact ⟨rfl, rfl, rfl⟩
      · simp at h
  case engineStop =>
      rcases hp : c.mgr.current_player with _ | p <;> rw [hp] at h <;> dsimp only at h
      · simp at h
      · split at h
        · injection h with h; rw [← h]; exact ⟨rfl, rfl, rfl⟩
        · simp at h
  case engineTick tm =>
      rcases hp : c.mgr.current_player with _ | p <;> rw [hp] at h <;> dsimp only at h
      · simp at h
      · injection h with h; rw [← h]; exact ⟨rfl, rfl, rfl⟩

theorem countP_entry_singleton (g : MusicGroup) (tl : TrackList) :
    List.countP (fun t => isLive t) [(⟨SPC.entry, false, g, tl, 0⟩ : TaskState)] = 1 := by
  simp [List.countP_cons, List.countP_nil, isLive]

theorem inv_step (env : Env) (ch : Choice) (c c' : Config)
    (hInv : Inv c) (h : stepOf env ch c = some c') : Inv c' := by
  obtain ⟨h1, h2⟩ := hInv
  unfold liveCount at h1 h2
  cases ch <;> simp only [stepOf] at h
  case session i =>
      rcases hg : c.sessions.get? i with _ | t <;> rw [hg] at h <;> dsimp only at h
      · simp at h
      · split at h
        · rename_i hl
          injection h with h
          have hpos : 0 < c.sessions.countP (fun t => isLive t) :=
            List.countP_pos_iff.mpr ⟨t, List.get?_mem hg, hl⟩
          have hcnt := countP_set_eq (fun t => isLive t) c.sessions i t
            (resumeSession env c.mgr t).2 hg
          simp only [hl, if_true] at hcnt
          rcases resumeSession_stepsToT env c.mgr t with ⟨hcp, _, _, _⟩ | ⟨hm, hpc⟩
          · constructor
            · rw [← h]
              show (c.sessions.set i (resumeSession env c.mgr t).2).countP
                (fun t => isLive t) ≤ 1
              by_cases hr2 : isLive (resumeSession env c.mgr t).2 = true <;>
                simp [hr2] at hcnt <;> omega
            · intro hnone
              rw [← h] at hnone
              have hnone' : c.mgr.currently_playing = none := by rw [← hcp]; exact hnone
              exact absurd (h2 hnone').1 (by omega)
          · have hdead : isLive (resumeSession env c.mgr t).2 = false := by
              unfold isLive; rw [hpc]
            simp [hdead] at hcnt
            constructor
            · rw [← h]
              show (c.sessions.set i (resumeSession env c.mgr t).2).countP
                (fun t => isLive t) ≤ 1
              omega
            · intro _
              rw [← h]
              refine ⟨?_, ?_⟩
              · show (c.sessions.set i (resumeSession env c.mgr t).2).countP
                  (fun t => isLive t) = 0
                omega
              · show (resumeSession env c.mgr t).1.current_player = none
                rw [hm]; rfl
        · simp at h
  case controller =>
      rcases hc : c.controller with _ | ⟨g, tl⟩ | _ | _ | _ <;> rw [hc] at h <;>
        dsimp only at h
      · simp at h
      · rcases hp : c.mgr.currently_playing with _ | cp <;> rw [hp] at h <;>
          dsimp only at h <;> injection h with h
        · have h0 := h2 hp
          constructor
          · rw [← h]
            show ((c.sessions ++ [(⟨SPC.entry, false, g, tl, 0⟩ : TaskState)]).countP
              (fun t => isLive t)) ≤ 1
            rw [List.countP_append, h0.1, countP_entry_singleton]
          · intro hnone
            rw [← h] at hnone
            exact absurd hnone (by simp [spawnSession])
        · rw [← h]; exact ⟨h1, h2⟩
      · injection h with h; rw [← h]; exact ⟨h1, h2⟩
      · rcases hp : c.mgr.currently_playing with _ | cp <;> rw [hp] at h <;>
          dsimp only at h <;> injection h with h <;> rw [← h]
        · exact ⟨h1, h2⟩
        · exact ⟨h1, h2⟩
      · simp at h
  case invokePlay gi ti =>
      split at h
      · rcases hr : resolveIndices c.mgr gi ti with _ | ⟨g, tl⟩ <;> rw [hr] at h <;>
          dsimp only at h
        · injection h with h; rw [← h]; exact ⟨h1, h2⟩
        · rcases hp : c.mgr.currently_playing with _ | cp <;> rw [hp] at h <;>
            dsimp only at h <;> injection h with h
          · have h0 := h2 hp
            constructor
            · rw [← h]
              show ((c.sessions ++ [(⟨SPC.entry, false, g, tl, 0⟩ : TaskState)]).countP
                (fun t => isLive t)) ≤ 1
              rw [List.countP_append, h0.1, countP_entry_singleton]
            · intro hnone
              rw [← h] at hnone
              exact absurd hnone (by simp [spawnSession])
          · constructor
            · rw [← h]
              show (setCancelFlag c.sessions cp.taskIdx).countP (fun t => isLive t) ≤ 1
              rw [liveCount_setCancelFlag c cp.taskIdx]
              exact h1
            · intro hnone
              rw [← h] at hnone
              exact absurd (hp ▸ hnone : some cp = none) (by simp)
      · simp at h
  case invokeCancel =>
      split at h
      · rcases hp : c.mgr.currently_playing with _ | cp <;> rw [hp] at h <;>
          dsimp only at h <;> injection h with h
        · rw [← h]; exact ⟨h1, h2⟩
        · constructor
          · rw [← h]
            show (setCancelFlag c.sessions cp.taskIdx).countP (fun t => isLive t) ≤ 1
            rw [liveCount_setCancelFlag c cp.taskIdx]
            exact h1
          · intro hnone
            rw [← h] at hnone
            exact absurd (hp ▸ hnone : some cp = none) (by simp)
      · simp at h
  case engineStop =>
      rcases hp : c.mgr.current_player with _ | p <;> rw [hp] at h <;> dsimp only at h
      · simp at h
      · split at h
        · injection h with h
          constructor
          · rw [← h]; exact h1
          · intro hnone
            rw [← h] at hnone
            have h0 := h2 hnone
            exact absurd (hp ▸ h0.2 : (some p : Option Player) = none) (by simp)
        · simp at h
  case engineTick tm =>
      rcases hp : c.mgr.current_player with _ | p <;> rw [hp] at h <;> dsimp only at h
      · simp at h
      · injection h with h
        constructor
        · rw [← h]; exact h1
        · intro hnone
          rw [← h] at hnone
          have h0 := h2 hnone
          exact absurd (hp ▸ h0.2 : (some p : Option Player) = none) (by simp)

theorem inv_reach (env : Env) (c c' : Config) (hInv : Inv c)
    (h : Reach env c c') : Inv c' := by
  induction h with
  | refl => exact hInv
  | tail _ hstep ih =>
      obtain ⟨ch, hch⟩ := hstep
      exact inv_step env ch _ _ ih hch

theorem frame_reach (env : Env) (c c' : Config) (h : Reach env c c') :
    c'.mgr.groups = c.mgr.groups ∧ c'.mgr.directory = c.mgr.directory ∧
      c'.mgr.volume = c.mgr.volume := by
  induction h with
  | refl => exact ⟨rfl, rfl, rfl⟩
  | tail _ hstep ih =>
      obtain ⟨ch, hch⟩ := hstep
      obtain ⟨a, b, cc⟩ := stepOf_frame env ch _ _ hch
      exact ⟨a.trans ih.1, b.trans ih.2.1, cc.trans ih.2.2⟩

/-- A step that creates a new session task can only be taken when the manager
shows no current session: every spawning branch of `stepOf` is guarded by
`currently_playing = none` (the exit condition of `cancel()`'s busy-wait). -/
theorem spawn_guard (env : Env) (ch : Choice) (c c' : Config)
    (h : stepOf env ch c = some c')
    (hlen : c.sessions.length < c'.sessions.length) :
    c.mgr.currently_playing = none := by
  cases ch <;> simp only [stepOf] at h
  case session i =>
      rcases hg : c.sessions.get? i with _ | t <;> rw [hg] at h <;> dsimp only at h
      · simp at h
      · split at h
        · injection h with h
          rw [← h] at hlen
          simp [List.length_set] at hlen
        · simp at h
  case controller =>
      rcases hc : c.controller with _ | ⟨g, tl⟩ | _ | _ | _ <;> rw [hc] at h <;>
        dsimp only at h
      · simp at h
      · rcases hp : c.mgr.currently_playing with _ | cp <;> rw [hp] at h <;>
          dsimp only at h <;> injection h with h
        rw [← h] at hlen; simp at hlen
      · injection h with h; rw [← h] at hlen; simp at hlen
      · rcases hp : c.mgr.currently_playing with _ | cp <;> rw [hp] at h <;>
          dsimp only at h <;> injection h with h <;> rw [← h] at hlen <;> simp at hlen
      · simp at h
  case invokePlay gi ti =>
      split at h
      · rcases hr : resolveIndices c.mgr gi ti with _ | ⟨g, tl⟩ <;> rw [hr] at h <;>
          dsimp only at h
        · injection h with h; rw [← h] at hlen; simp at hlen
        · rcases hp : c.mgr.currently_playing with _ | cp <;> rw [hp] at h <;>
            dsimp only at h <;> injection h with h
          rw [← h] at hlen
          rw [setCancelFlag_length] at hlen
          simp at hlen
      · simp at h
  case invokeCancel =>
      split at h
      · rcases hp : c.mgr.currently_playing with _ | cp <;> rw [hp] at h <;>
          dsimp only at h <;> injection h with h
        rw [← h] at hlen
        rw [setCancelFlag_length] at hlen
        simp at hlen
      · simp at h
  case engineStop =>
      rcases hp : c.mgr.current_player with _ | p <;> rw [hp] at h <;> dsimp only at h
      · simp at h
      · split at h
        · injection h with h; rw [← h] at hlen; simp at hlen
        · simp at h
  case engineTick tm =>
      rcases hp : c.mgr.current_player with _ | p <;> rw [hp] at h <;> dsimp only at h
      · simp at h
      · injection h with h; rw [← h] at hlen; simp at hlen

theorem runSched_reach (env : Env) (l : List Choice) (c c' : Config)
    (h : runSched env l c = some c') : Reach env c c' := by
  induction l generalizing c with
  | nil =>
      simp only [runSched] at h
      injection h with h
      rw [h]
      exact Relation.ReflTransGen.refl
  | cons ch rest ih =>
      simp only [runSched] at h
      cases hs : stepOf env ch c with
      | none => rw [hs] at h; simp at h
      | some c1 =>
          rw [hs] at h
          exact Relation.ReflTransGen.head ⟨ch, hs⟩ (ih c1 h)

/-- C1.  The claim says the cleanup step runs exactly once on every
termination, including natural completion, clearing `currently_playing` and
`current_player`.  The code violates this: on natural completion
(`loop=false`, both tracks played through, the `break` of line 239) the
coroutine returns without entering the `except asyncio.CancelledError`
block, so neither field is cleared, and a subsequent `cancel()` busy-waits
forever on `currently_playing is not None`. -/
theorem c1_natural_completion_skips_cleanup :
    natRun.map endedWithoutCleanup = some true ∧
    natRunCancel.map (fun c => decide (c.controller = CPC.cancelWaiting)) =
      some true := by
  constructor
  · decide
  · decide

/-- C2.  At most one session task is ever alive, and a step that spawns a new
session task can only happen from a state where the previous session is fully
torn down: `currently_playing` absent, engine handle absent, zero live tasks.
The new task opens its first file only in its own later resumption, hence
after this point. -/
theorem c2_exclusive_session (env : Env) (m : Mgr) (c : Config)
    (_h0 : m.currently_playing = none) (h0' : m.current_player = none)
    (hr : Reach env (initialConfig m) c) :
    liveCount c ≤ 1 ∧
      ∀ ch c', stepOf env ch c = some c' →
        c.sessions.length < c'.sessions.length →
        c.mgr.currently_playing = none ∧ c.mgr.current_player = none ∧
          liveCount c = 0 := by
  have hInit : Inv (initialConfig m) := by
    constructor
    · show List.countP (fun t => isLive t) [] ≤ 1
      simp
    · intro _
      exact ⟨by simp [liveCount, initialConfig], h0'⟩
  have hInv : Inv c := inv_reach env _ c hInit hr
  refine ⟨hInv.1, ?_⟩
  intro ch c' hstep hlen
  have hcp := spawn_guard env ch c c' hstep hlen
  have h2 := hInv.2 hcp
  exact ⟨hcp, h2.2, h2.1⟩

theorem c2_exclusive_session_witness :
    liveCount (initialConfig mgrEx) ≤ 1 ∧
      ∀ ch c', stepOf envId ch (initialConfig mgrEx) = some c' →
        (initialConfig mgrEx).sessions.length < c'.sessions.length →
        (initialConfig mgrEx).mgr.currently_playing = none ∧
          (initialConfig mgrEx).mgr.current_player = none ∧
          liveCount (initialConfig mgrEx) = 0 :=
  c2_exclusive_session envId mgrEx (initialConfig mgrEx) rfl rfl
    Relation.ReflTransGen.refl

/-- C3.  Directory resolution returns the track list's directory if set, else
the group's, else the manager's default, and fails (the `ValueError` of
line 262) exactly when all three are unset. -/
theorem c3_directory_resolution (md : Option String) (g : MusicGroup)
    (tl : TrackList) :
    (∀ d, tl.directory = some d → getTrackListRootDirectory md g tl = some d) ∧
    (tl.directory = none → ∀ d, g.directory = some d →
      getTrackListRootDirectory md g tl = some d) ∧
    (tl.directory = none → g.directory = none →
      getTrackListRootDirectory md g tl = md) ∧
    (getTrackListRootDirectory md g tl = none ↔
      tl.directory = none ∧ g.directory = none ∧ md = none) := by
  rcases htl : tl.directory with _ | d1 <;> rcases hg : g.directory with _ | d2 <;>
    simp [getTrackListRootDirectory, htl, hg]

theorem c3_directory_resolution_witness :
    getTrackListRootDirectory (some "/music") groupG tlJazz = some "/jazz" :=
  (c3_directory_resolution (some "/music") groupG tlJazz).1 "/jazz" rfl

set_option maxRecDepth 40000 in
/-- C4.  A parsed `"H:M:S"` string converts to exactly
`(S + 60·M + 3600·H) · 1000` milliseconds; `"00:01:05"` gives 65000 for
`start_at`/`end_at`; an unparseable string (such as `"1:2"`) makes `Track`
construction fail; omitted fields stay absent. -/
theorem c4_time_parsing :
    (∀ s h m sec, parseHMS s = some (h, m, sec) →
      convertFormattedTimeToMs s = some (((sec : ℤ) + 60 * m + 3600 * h) * 1000)) ∧
    convertFormattedTimeToMs "00:01:05" = some 65000 ∧
    convertFormattedTimeToMs "1:2" = none ∧
    mkTrack (.record "x.mp3" (some "00:01:05") (some "00:01:05")) =
      some ⟨"x.mp3", some 65000, some 65000⟩ ∧
    (∀ f, mkTrack (.str f) = some ⟨f, none, none⟩) ∧
    (∀ f, mkTrack (.record f none none) = some ⟨f, none, none⟩) ∧
    (∀ f s, parseHMS s = none → mkTrack (.record f (some s) none) = none) ∧
    (∀ f s, parseHMS s = none → mkTrack (.record f none (some s)) = none) ∧
    (∀ f s ms, convertFormattedTimeToMs s = some ms →
      mkTrack (.record f (some s) none) = some ⟨f, some ms, none⟩) := by
  refine ⟨?_, by decide, by decide, by decide, fun f => rfl, fun f => rfl, ?_, ?_, ?_⟩
  · intro s h m sec hp
    simp only [convertFormattedTimeToMs, hp, Option.map]
    congr 1
    ring
  · intro f s hp
    simp [mkTrack, convertFormattedTimeToMs, hp]
  · intro f s hp
    simp [mkTrack, convertFormattedTimeToMs, hp]
  · intro f s ms hp
    simp [mkTrack, hp]

theorem c4_time_parsing_witness :
    convertFormattedTimeToMs "00:01:05" = some 65000 :=
  c4_time_parsing.2.1

set_option maxRecDepth 200000 in
/-- C5, counterexample.  The claim says the `(i+1)`-st write of a smooth fade
is `round(V0 - (i+1)·(V0-volume)/n)`.  The source uses Python `int()`, which
truncates toward zero: fading from 100 to 0 in 3 steps, the program computes
`100 - 1 * (100 / 3) = 66.66666666666666` in binary64 and writes
`int(…) = 66`, while rounding the claimed value to nearest would write 67. -/
theorem c5_smooth_fade_counterexample :
    smoothVolumeWrites 100 0 3 = [66, 33, 0] ∧
    smoothVolumeWritesSpec 100 0 3 = [67, 33, 0] ∧
    ¬ smoothVolumeWrites 100 0 3 = smoothVolumeWritesSpec 100 0 3 := by
  refine ⟨by decide, by decide, by decide⟩

set_option maxRecDepth 200000 in
/-- C5, amended.  A smooth `set_volume` from handle volume `v0` toward `vt`
over `n ≠ 0` steps performs exactly `n` handle-volume writes; the `(i+1)`-st
write is `int(v0 - (i+1)·((v0 - vt)/n))` evaluated in IEEE-754 binary64
arithmetic — Python `int()` truncation toward zero, not rounding to
nearest; the final write equals `vt` only up to the floating-point rounding
and the truncation (fading 30 → 1 over 7 steps computes
`30 - 7 * (29 / 7) = 0.9999999999999964` and writes 0, not 1); fading from
100 to 20 over 4 steps writes 80, 60, 40, 20 in that order. -/
theorem c5_smooth_fade_writes (v0 vt : ℤ) (n : ℕ) (_hn : n ≠ 0) :
    (smoothVolumeWrites v0 vt n).length = n ∧
    (∀ i, i < n → (smoothVolumeWrites v0 vt n).get? i =
      some (fTrunc (fSubIntF v0 (fMulInt ((i : ℤ) + 1) (fDivInt (v0 - vt) n))))) ∧
    smoothVolumeWrites 100 20 4 = [80, 60, 40, 20] ∧
    (smoothVolumeWrites 30 1 7).get? 6 = some 0 ∧
    (∀ (m : Mgr) (p : Player), m.current_player = some p →
      (setVolumeRun m vt true true n).2 = smoothVolumeWrites p.vol vt n) := by
  refine ⟨by simp [smoothVolumeWrites], ?_, by decide, by decide, ?_⟩
  · intro i hi
    show ((List.range n).map (rampValue v0 vt n)).get? i =
      some (fTrunc (fSubIntF v0 (fMulInt ((i : ℤ) + 1) (fDivInt (v0 - vt) n))))
    rw [List.get?_eq_getElem?, List.getElem?_map, List.getElem?_range hi]
    rfl
  · intro m p hm
    unfold setVolumeRun
    rw [hm]
    rfl

theorem c5_smooth_fade_writes_witness :
    smoothVolumeWrites 100 20 4 = [80, 60, 40, 20] :=
  (c5_smooth_fade_writes 100 20 4 (by decide)).2.2.1

/-- C6.  `cancel()` on a manager with no active session returns at once with
the configuration unchanged (it never reaches an `await`); with an active
session it sets the task's cancellation flag and parks in the busy-wait; each
busy-wait resumption that still sees `currently_playing` parks again, and the
call can only return (reach `idle`) from a resumption that observes
`currently_playing` absent — i.e. after the session's cleanup has run. -/
theorem c6_cancel_protocol (env : Env) (c : Config) :
    (c.controller = CPC.idle ∨ c.controller = CPC.indexError →
      c.mgr.currently_playing = none →
      stepOf env Choice.invokeCancel c = some c) ∧
    (∀ cp, c.controller = CPC.idle ∨ c.controller = CPC.indexError →
      c.mgr.currently_playing = some cp →
      stepOf env Choice.invokeCancel c =
        some { c with sessions := setCancelFlag c.sessions cp.taskIdx,
                      controller := CPC.cancelWaiting }) ∧
    (∀ cp, c.controller = CPC.cancelWaiting →
      c.mgr.currently_playing = some cp →
      stepOf env Choice.controller c = some c) ∧
    (∀ c', c.controller = CPC.cancelWaiting →
      stepOf env Choice.controller c = some c' → c'.controller = CPC.idle →
      c.mgr.currently_playing = none) := by
  refine ⟨?_, ?_, ?_, ?_⟩
  · intro hor hcp
    simp [stepOf, if_pos hor, hcp]
  · intro cp hor hcp
    simp [stepOf, if_pos hor, hcp]
  · intro cp hcw hcp
    simp [stepOf, hcw, hcp]
  · intro c' hcw hstep hidle
    simp only [stepOf, hcw] at hstep
    cases hcp : c.mgr.currently_playing with
    | none => rfl
    | some cp =>
        rw [hcp] at hstep
        dsimp only at hstep
        injection hstep with hstep
        rw [← hstep] at hidle
        rw [hcw] at hidle
        exact absurd hidle (by simp)

theorem c6_cancel_protocol_witness :
    stepOf envId Choice.invokeCancel (initialConfig mgrEx) =
      some (initialConfig mgrEx) :=
  (c6_cancel_protocol envId (initialConfig mgrEx)).1 (Or.inl rfl) rfl

/-- C7, counterexample.  The claim says `volume ∈ [0,100]` always holds and
is preserved by every `set_volume(…, set_global=true)`.  Neither the
constructor (line 146, `int(config["volume"])`) nor `set_volume` (line 286,
`self.volume = volume`) validates or clamps: passing 150 stores 150. -/
theorem c7_volume_counterexample :
    (0 ≤ mgrEx.volume ∧ mgrEx.volume ≤ 100) ∧
    (setVolumeRun mgrEx 150 true true 20).1.volume = 150 ∧
    ¬ (setVolumeRun mgrEx 150 true true 20).1.volume ≤ 100 ∧
    (mkMusicManager 150 none true []).volume = 150 ∧
    ¬ (mkMusicManager 150 none true []).volume ≤ 100 := by
  refine ⟨by decide, by decide, by decide, by decide, by decide⟩

theorem volume_foldl_setPlayerVol (ws : List ℤ) (m : Mgr) :
    (ws.foldl setPlayerVol m).volume = m.volume := by
  induction ws generalizing m with
  | nil => rfl
  | cons w ws ih =>
      rw [List.foldl_cons, ih]
      exact (setPlayerVol_frame m w).2.1

theorem setVolumeRun_volume (m : Mgr) (v : ℤ) (sg sm : Bool) (n : ℕ) :
    (setVolumeRun m v sg sm n).1.volume = if sg then v else m.volume := by
  unfold setVolumeRun
  cases sg <;> simp [volume_foldl_setPlayerVol]

/-- C7, amended.  The global volume is exactly the last value supplied:
construction stores the configured volume unvalidated, a global `set_volume`
stores its argument unvalidated, a non-global `set_volume` leaves it alone,
and no step of the playback machinery ever writes it.  Hence
`volume ∈ [0,100]` holds exactly as long as the constructor argument and
every global `set_volume` argument lie in `[0,100]`. -/
theorem c7_volume_range (env : Env) (m : Mgr) (v vol0 : ℤ) (dir : Option String)
    (srt sm : Bool) (n : ℕ) (gs : List MusicGroup)
    (hv0 : 0 ≤ v) (hv1 : v ≤ 100) :
    (0 ≤ (setVolumeRun m v true sm n).1.volume ∧
      (setVolumeRun m v true sm n).1.volume ≤ 100) ∧
    (setVolumeRun m v false sm n).1.volume = m.volume ∧
    (mkMusicManager vol0 dir srt gs).volume = vol0 ∧
    (∀ ch c c', stepOf env ch c = some c' → c'.mgr.volume = c.mgr.volume) := by
  refine ⟨?_, ?_, rfl, ?_⟩
  · rw [setVolumeRun_volume]
    exact ⟨by simpa using hv0, by simpa using hv1⟩
  · rw [setVolumeRun_volume]
    simp
  · intro ch c c' h
    exact (stepOf_frame env ch c c' h).2.2

theorem c7_volume_range_witness :
    (0 ≤ (setVolumeRun mgrEx 80 true true 20).1.volume ∧
      (setVolumeRun mgrEx 80 true true 20).1.volume ≤ 100) ∧
    (setVolumeRun mgrEx 80 false true 20).1.volume = mgrEx.volume ∧
    (mkMusicManager 50 none true []).volume = 50 ∧
    (∀ ch c c', stepOf envId ch c = some c' → c'.mgr.volume = c.mgr.volume) :=
  c7_volume_range envId mgrEx 80 50 none true true 20 [] (by decide) (by decide)

/-- C8.  An out-of-range `group_index` or `track_list_index` makes
`play_track_list` raise `IndexError` at line 184/185, before `cancel()` is
invoked and before any state is touched: the manager state and the task list
are unchanged and the error surfaces to the caller. -/
theorem c8_index_error (env : Env) (c : Config) (gi ti : ℤ)
    (hctrl : c.controller = CPC.idle ∨ c.controller = CPC.indexError)
    (hres : resolveIndices c.mgr gi ti = none) :
    stepOf env (Choice.invokePlay gi ti) c =
      some { mgr := c.mgr, sessions := c.sessions,
             controller := CPC.indexError } := by
  simp [stepOf, if_pos hctrl, hres]

theorem c8_index_error_witness :
    stepOf envId (Choice.invokePlay 5 0) (initialConfig mgrEx) =
      some { mgr := mgrEx, sessions := [], controller := CPC.indexError } :=
  c8_index_error envId (initialConfig mgrEx) 5 0 (Or.inl rfl) (by decide)

/-- C9.  Playback never mutates the stored configuration: along every machine
run the manager's `groups` — hence every track list's stored `tracks`
sequence — is unchanged; shuffling acts only on the per-pass working copy
held inside the session task. -/
theorem c9_tracks_never_mutated (env : Env) (c c' : Config)
    (h : Reach env c c') :
    c'.mgr.groups = c.mgr.groups ∧
    (c'.mgr.groups.map (fun g => g.track_lists.map (fun tl => tl.tracks)) =
      c.mgr.groups.map (fun g => g.track_lists.map (fun tl => tl.tracks))) := by
  have hf := frame_reach env c c' h
  exact ⟨hf.1, by rw [hf.1]⟩

theorem c9_tracks_never_mutated_witness :
    (initialConfig mgrEx).mgr.groups = (initialConfig mgrEx).mgr.groups ∧
    ((initialConfig mgrEx).mgr.groups.map
        (fun g => g.track_lists.map (fun tl => tl.tracks)) =
      (initialConfig mgrEx).mgr.groups.map
        (fun g => g.track_lists.map (fun tl => tl.tracks))) :=
  c9_tracks_never_mutated envId (initialConfig mgrEx) (initialConfig mgrEx)
    Relation.ReflTransGen.refl

/-- C10.  Python indexing: on a sequence of length `n`, every index
`i ∈ [-n, -1]` selects element `n + i` without error, and `IndexError` is
raised precisely for indices outside `[-n, n-1]`; `play_track_list`'s index
resolution fails exactly when one of its two subscriptions does. -/
theorem c10_negative_indices (m : Mgr) (gi ti : ℤ) :
    (∀ _h1 : -(m.groups.length : ℤ) ≤ gi, ∀ _h2 : gi < 0,
      pyGet m.groups gi = m.groups.get? (gi + m.groups.length).toNat ∧
      (pyGet m.groups gi).isSome = true) ∧
    (pyGet m.groups gi = none ↔
      gi < -(m.groups.length : ℤ) ∨ (m.groups.length : ℤ) ≤ gi) ∧
    (resolveIndices m gi ti = none ↔
      pyGet m.groups gi = none ∨
        ∃ g, pyGet m.groups gi = some g ∧ pyGet g.track_lists ti = none) := by
  refine ⟨?_, ?_, ?_⟩
  · intro h1 h2
    simp only [pyGet]
    rw [if_pos h2]
    have hc : 0 ≤ gi + (m.groups.length : ℤ) ∧
        gi + (m.groups.length : ℤ) < (m.groups.length : ℤ) := by omega
    rw [if_pos hc]
    refine ⟨rfl, ?_⟩
    cases hg : m.groups.get? (gi + (m.groups.length : ℤ)).toNat with
    | none =>
        rw [List.get?_eq_none] at hg
        omega
    | some g => rfl
  · simp only [pyGet]
    by_cases hneg : gi < 0
    · rw [if_pos hneg]
      by_cases hin : 0 ≤ gi + (m.groups.length : ℤ) ∧
          gi + (m.groups.length : ℤ) < (m.groups.length : ℤ)
      · rw [if_pos hin, List.get?_eq_none]
        omega
      · rw [if_neg hin]
        constructor
        · intro _
          omega
        · intro _
          rfl
    · rw [if_neg hneg]
      by_cases hin : 0 ≤ gi ∧ gi < (m.groups.length : ℤ)
      · rw [if_pos hin, List.get?_eq_none]
        omega
      · rw [if_neg hin]
        constructor
        · intro _
          omega
        · intro _
          rfl
  · unfold resolveIndices
    cases hg : pyGet m.groups gi with
    | none => simp
    | some g =>
        cases ht : pyGet g.track_lists ti with
        | none => simp [ht]
        | some tl => simp [ht]

theorem c10_negative_indices_witness :
    pyGet mgrEx.groups (-1) =
      mgrEx.groups.get? ((-1 : ℤ) + (mgrEx.groups.length : ℤ)).toNat ∧
    (pyGet mgrEx.groups (-1)).isSome = true :=
  (c10_negative_indices mgrEx (-1) 0).1 (by decide) (by decide)

end Dndj
